import Mathlib

/-!
Verification development for the UNBC_water conversion pipeline
(`convert_data.py`, `download_air_temp.py`).

The Python code is shallowly embedded: pandas tables become lists of typed
records, `NaN` becomes `Option.none`, exceptions become `Except.error`, and
the in-place dictionary mutations of `update_stations_data` become explicit
record updates in the order the source performs them.
-/

set_option autoImplicit false

namespace UNBCWater

/-- One raw sample of a per-station time series, after the two coercions the
source applies per row: `pd.to_datetime` followed by `.dt.date` truncation
(leaving only the calendar date, a `YYYY-MM-DD` string), and
`pd.to_numeric(..., errors = coerce)` on the temperature (`none` models the
`NaN` a failed coercion or a missing value produces). -/
structure RawSample where
  date : String
  wtmp : Option ℚ
  deriving DecidableEq, Repr

/-- A raw CSV file as `pd.read_csv` delivers it: its header (column names)
and its rows. Column access `df[c]` in the source raises `KeyError` when
`c` is not among `cols`; the embedding checks membership in `cols`. -/
structure RawTable where
  cols : List String
  rows : List RawSample
  deriving DecidableEq, Repr

/-- One calendar-day summary, the element type of the emitted JSON array.
`none` models JSON `null`, the absence marker the source substitutes for
`NaN` before emission. -/
structure DailyAggregate where
  date : String
  temp_c : Option ℚ
  min_temp_c : Option ℚ
  max_temp_c : Option ℚ
  n_values : ℕ
  airtemp_c : Option ℚ
  deriving DecidableEq, Repr

/-- The date-to-air-temperature lookup loaded from a station's
`{station_code}_airtemp.json` file (here the braces are file-name text).
A JSON object has distinct keys; `List.lookup` returns the first binding,
matching `dict.get`. -/
abbrev AirTempLookup := List (String × ℚ)

/-- `round(2)` of pandas, on exact rationals: round to 2 decimal places. -/
def round2 (q : ℚ) : ℚ := (round (q * 100) : ℤ) / 100

/-- Minimum of a list of rationals (`min` aggregation over the non-missing
values of a date group); the `[]` case is never reached on a nonempty group. -/
def listMin : List ℚ → ℚ
  | [] => 0
  | x :: xs => xs.foldl min x

/-- Maximum of a list of rationals (`max` aggregation). -/
def listMax : List ℚ → ℚ
  | [] => 0
  | x :: xs => xs.foldl max x

/-- Lexicographic order on character lists, by code point: on `YYYY-MM-DD`
strings this is exactly chronological order, the order `groupby` sorts its
date keys into. -/
def charLe : List Char → List Char → Bool
  | [], _ => true
  | _ :: _, [] => false
  | a :: as, b :: bs =>
    if a.toNat < b.toNat then true
    else if b.toNat < a.toNat then false
    else charLe as bs

/-- Chronological comparison of two `YYYY-MM-DD` date strings. -/
def dateLe (a b : String) : Bool := charLe a.toList b.toList

/-- Insert a date into a sorted list of dates, keeping it sorted. -/
def insertSorted (d : String) : List String → List String
  | [] => [d]
  | x :: xs => if dateLe d x then d :: x :: xs else x :: insertSorted d xs

/-- Sort the group keys ascending, as `groupby` does by default. -/
def sortDates (l : List String) : List String := l.foldr insertSorted []

/-- The non-missing temperature values of the rows falling on date `d`:
the subset over which `mean`, `min`, `max` and `count` aggregate. -/
def valsOn (rows : List RawSample) (d : String) : List ℚ :=
  (rows.filter fun r => r.date = d).filterMap fun r => r.wtmp

/-- The daily summary for one group key `d`, mirroring
`groupby(date).agg(wtmp : [mean, min, max, count]).round(2)` followed by the
`NaN`-to-`None` normalization: an empty non-missing subset gives `NaN` mean,
min and max (hence `none`) and count 0. `airtemp_c` starts absent. -/
def aggFor (rows : List RawSample) (d : String) : DailyAggregate :=
  let vs := valsOn rows d
  { date := d
    temp_c := if vs = [] then none else some (round2 (vs.sum / vs.length))
    min_temp_c := if vs = [] then none else some (round2 (listMin vs))
    max_temp_c := if vs = [] then none else some (round2 (listMax vs))
    n_values := vs.length
    airtemp_c := none }

/-- The full `groupby`-aggregate step: one `DailyAggregate` per distinct
calendar date of the input, in ascending date order. -/
def daily_stats (rows : List RawSample) : List DailyAggregate :=
  (sortDates (rows.map fun r => r.date).dedup).map (aggFor rows)

/-- The air-temperature join of `process_csv_file`: with no lookup file the
`airtemp_c` column is set to `None` throughout; with a lookup,
`airtemp_data.get(d, None)` per row. No other column is touched. -/
def merge_air_temp (lookup : Option AirTempLookup) (aggs : List DailyAggregate) :
    List DailyAggregate :=
  match lookup with
  | none => aggs.map fun a => { a with airtemp_c := none }
  | some tbl => aggs.map fun a => { a with airtemp_c := tbl.lookup a.date }

/-- `process_csv_file` of `convert_data.py`: access to the hardcoded
`timestamp` and `wtmp` columns raises `KeyError` when the header lacks them;
otherwise aggregate by calendar date and join the air-temperature lookup. -/
def process_csv_file (tbl : RawTable) (lookup : Option AirTempLookup) :
    Except String (List DailyAggregate) :=
  if "timestamp" ∉ tbl.cols then .error "KeyError: timestamp"
  else if "wtmp" ∉ tbl.cols then .error "KeyError: wtmp"
  else .ok (merge_air_temp lookup (daily_stats tbl.rows))

/-- One entry of `stations.json`. The fields `update_stations_data` reads or
writes are explicit; every other key of the JSON object (station_id,
latitude, provider_name, ...) is carried opaquely in `extra`, which no code
path touches. `csv_filename` is optional because a freshly loaded record may
lack the key. `end` is a Lean keyword, hence the guillemets. -/
structure StationRecord where
  station_code : String
  csv_filename : Option String
  start : String
  «end» : String
  n : ℕ
  filename : String
  extra : List (String × String)
  deriving DecidableEq, Repr

/-- The file-system and lookup environment `update_stations_data` runs in:
the discovered CSV basenames in `glob` order, each file's parsed content,
whether `shutil.copy2` raises for a given file, whether the per-station JSON
write raises for a given output filename, and the optional air-temperature
lookup per station code. -/
structure Env where
  csv_files : List String
  file_content : String → RawTable
  copy_fails : String → Bool
  write_fails : String → Bool
  airtemp : String → Option AirTempLookup

/-- `station_code in os.path.basename(csv_file)`: substring containment. -/
def strContainsSub (hay needle : String) : Bool :=
  decide (needle.toList <:+: hay.toList)

/-- The matching loop of `update_stations_data`: the first discovered CSV
whose basename contains the station code as a substring. -/
def findMatch (files : List String) (code : String) : Option String :=
  files.find? fun f => strContainsSub f code

/-- The body of the per-station loop of `update_stations_data`, for one
station. `Except.error` models an exception that escapes the loop (only
`shutil.copy2` can raise outside the `try` block); `Except.ok r` means `r`
is appended to `updated_stations`. The source mutates the station dict in
place, so `csv_filename` is already overwritten when the `try` block is
entered, and on an exception inside `try` the partially mutated dict is the
one appended. A failing JSON write is caught after `n`, `start`, `end` were
assigned, so the fully updated record is appended either way. -/
def stationStep (env : Env) (station : StationRecord) : Except String StationRecord :=
  match findMatch env.csv_files station.station_code with
  | none => .ok station
  | some f =>
    if env.copy_fails f then
      .error ("copy failed for " ++ f)
    else
      let withCsv := { station with csv_filename := some f }
      match process_csv_file (env.file_content f) (env.airtemp station.station_code) with
      | .error _ => .ok withCsv
      | .ok data =>
        let withN := { withCsv with n := data.length }
        let withSpan :=
          match data.head?, data.getLast? with
          | some first, some last => { withN with start := first.date, «end» := last.date }
          | _, _ => withN
        if env.write_fails station.filename then
          .ok withSpan
        else
          .ok withSpan

/-- `update_stations_data` over the station list: the loop appends one
record per station; an exception escaping one iteration aborts the whole
function (and, in `main`, the run). -/
def update_stations_data (env : Env) : List StationRecord → Except String (List StationRecord)
  | [] => .ok []
  | s :: rest => do
    let r ← stationStep env s
    let rs ← update_stations_data env rest
    .ok (r :: rs)

deriving instance DecidableEq for Except

/-- The air temperature `process_csv_file` assigns for a given date:
`None` without a lookup file, `airtemp_data.get(d, None)` with one. -/
def airtempOf (lookup : Option AirTempLookup) (d : String) : Option ℚ :=
  match lookup with
  | none => none
  | some tbl => tbl.lookup d

theorem merge_air_temp_eq_map (lookup : Option AirTempLookup) (aggs : List DailyAggregate) :
    merge_air_temp lookup aggs =
      aggs.map fun a => { a with airtemp_c := airtempOf lookup a.date } := by
  cases lookup <;> rfl

theorem mem_insertSorted {y d : String} {l : List String} :
    y ∈ insertSorted d l ↔ y = d ∨ y ∈ l := by
  induction l with
  | nil => simp [insertSorted]
  | cons x xs ih =>
    cases hdx : dateLe d x <;> (simp [insertSorted, hdx, ih]; try tauto)

theorem mem_sortDates {y : String} {l : List String} : y ∈ sortDates l ↔ y ∈ l := by
  induction l with
  | nil => simp [sortDates]
  | cons x xs ih =>
    show y ∈ insertSorted x (sortDates xs) ↔ _
    rw [mem_insertSorted, ih]
    simp

theorem mem_daily_stats {a : DailyAggregate} {rows : List RawSample} :
    a ∈ daily_stats rows ↔ ∃ r ∈ rows, a = aggFor rows r.date := by
  simp only [daily_stats, List.mem_map, mem_sortDates, List.mem_dedup]
  constructor
  · rintro ⟨d, ⟨r, hr, rfl⟩, rfl⟩
    exact ⟨r, hr, rfl⟩
  · rintro ⟨r, hr, rfl⟩
    exact ⟨r.date, ⟨r, hr, rfl⟩, rfl⟩

theorem process_csv_file_ok {tbl : RawTable} {lookup : Option AirTempLookup}
    {aggs : List DailyAggregate} (h : process_csv_file tbl lookup = .ok aggs) :
    aggs = merge_air_temp lookup (daily_stats tbl.rows) := by
  unfold process_csv_file at h
  split at h
  · exact absurd h (by simp)
  · split at h
    · exact absurd h (by simp)
    · exact (Except.ok.inj h).symm

/-- C1: for every valid raw series input accepted by the aggregator, every
emitted DailyAggregate carries, for its own calendar date, the count of
samples whose temperature survived numeric coercion as `n_values`, and the
mean, minimum and maximum of exactly that non-missing subset, each rounded
to 2 decimal places, as `temp_c`, `min_temp_c`, `max_temp_c`. -/
theorem C1_daily_aggregate_statistics (tbl : RawTable) (lookup : Option AirTempLookup)
    (aggs : List DailyAggregate) (h : process_csv_file tbl lookup = .ok aggs)
    (a : DailyAggregate) (ha : a ∈ aggs) :
    a.n_values = ((tbl.rows.filter fun r => r.date = a.date).filterMap fun r => r.wtmp).length ∧
    (((tbl.rows.filter fun r => r.date = a.date).filterMap fun r => r.wtmp) ≠ [] →
      a.temp_c = some (round2
        (((tbl.rows.filter fun r => r.date = a.date).filterMap fun r => r.wtmp).sum /
          ((tbl.rows.filter fun r => r.date = a.date).filterMap fun r => r.wtmp).length)) ∧
      a.min_temp_c = some (round2
        (listMin ((tbl.rows.filter fun r => r.date = a.date).filterMap fun r => r.wtmp))) ∧
      a.max_temp_c = some (round2
        (listMax ((tbl.rows.filter fun r => r.date = a.date).filterMap fun r => r.wtmp)))) := by
  have h2 := process_csv_file_ok h
  subst h2
  rw [merge_air_temp_eq_map] at ha
  obtain ⟨b, hb, rfl⟩ := List.mem_map.1 ha
  obtain ⟨r, hr, rfl⟩ := mem_daily_stats.1 hb
  refine ⟨?_, fun hne => ?_⟩
  · simp [aggFor, valsOn]
  · have hne' : valsOn tbl.rows r.date ≠ [] := by
      simpa [aggFor, valsOn] using hne
    simp [aggFor, valsOn, if_neg hne'] at hne ⊢
    simp [valsOn] at hne'
    simp [hne']

/-- A concrete two-day raw table: two good samples on `2021-05-01`, one
failed coercion on `2021-05-02`. -/
def tblW : RawTable :=
  ⟨["timestamp", "wtmp"],
    [⟨"2021-05-01", some 10⟩, ⟨"2021-05-01", some 12⟩, ⟨"2021-05-02", none⟩]⟩

/-- C1 witness: the statistics theorem evaluated on `tblW`: the aggregate
of `2021-05-01` counts both non-missing samples. -/
theorem C1_daily_aggregate_statistics_witness :
    ({ aggFor tblW.rows "2021-05-01" with airtemp_c := none } : DailyAggregate).n_values = 2 := by
  have h := C1_daily_aggregate_statistics tblW none
    (merge_air_temp none (daily_stats tblW.rows)) rfl
    { aggFor tblW.rows "2021-05-01" with airtemp_c := none }
    (by rw [merge_air_temp_eq_map]
        exact List.mem_map.2 ⟨aggFor tblW.rows "2021-05-01",
          List.mem_map.2 ⟨"2021-05-01", by decide, rfl⟩, rfl⟩)
  rw [h.1]
  rfl

/-- C5: a calendar date present in the raw input all of whose samples fail
numeric coercion yields an emitted DailyAggregate with the absence marker
(never NaN) for mean, minimum and maximum, and a count of 0. -/
theorem C5_all_missing_date (tbl : RawTable) (lookup : Option AirTempLookup)
    (aggs : List DailyAggregate) (h : process_csv_file tbl lookup = .ok aggs)
    (d : String) (hd : ∃ r ∈ tbl.rows, r.date = d)
    (hmiss : ∀ r ∈ tbl.rows, r.date = d → r.wtmp = none) :
    ∃ a ∈ aggs, a.date = d ∧ a.temp_c = none ∧ a.min_temp_c = none ∧
      a.max_temp_c = none ∧ a.n_values = 0 := by
  have h2 := process_csv_file_ok h
  subst h2
  obtain ⟨r, hr, rfl⟩ := hd
  have hnil : valsOn tbl.rows r.date = [] := by
    rw [valsOn, List.filterMap_eq_nil_iff]
    intro r2 hr2
    have h3 := List.mem_filter.1 hr2
    exact hmiss r2 h3.1 (by simpa using h3.2)
  refine ⟨{ aggFor tbl.rows r.date with airtemp_c := airtempOf lookup r.date }, ?_, ?_⟩
  · rw [merge_air_temp_eq_map]
    exact List.mem_map.2 ⟨aggFor tbl.rows r.date, mem_daily_stats.2 ⟨r, hr, rfl⟩, rfl⟩
  · simp [aggFor, hnil]

/-- C5 witness: on the concrete table `tblW`, the date `2021-05-02` has a
single sample, whose coercion failed, and its aggregate carries the absence
markers and count 0. -/
theorem C5_all_missing_date_witness :
    ∃ a ∈ merge_air_temp none (daily_stats tblW.rows), a.date = "2021-05-02" ∧
      a.temp_c = none ∧ a.min_temp_c = none ∧ a.max_temp_c = none ∧ a.n_values = 0 :=
  C5_all_missing_date tblW none _ rfl "2021-05-02" (by decide) (by decide)

/-- C3 counterexample: a raw file using the first known naming convention,
with columns `timestamp (UTC)` and `wtmp (°C)`, is rejected: the column
names are hardcoded, and the access to the absent `timestamp` column raises
a KeyError instead of aggregating. -/
theorem C3_counterexample :
    process_csv_file ⟨["timestamp (UTC)", "wtmp (°C)"], [⟨"2021-05-01", some 10⟩]⟩ none
      = .error "KeyError: timestamp" := by
  decide

/-- C3 amended: the aggregator reads the hardcoded column names `timestamp`
and `wtmp`; aggregation succeeds exactly for tables whose header carries
both (convention (b)), and the merged daily statistics are returned. -/
theorem C3_amended_hardcoded_columns (tbl : RawTable) (lookup : Option AirTempLookup)
    (h1 : "timestamp" ∈ tbl.cols) (h2 : "wtmp" ∈ tbl.cols) :
    process_csv_file tbl lookup = .ok (merge_air_temp lookup (daily_stats tbl.rows)) := by
  simp [process_csv_file, h1, h2]

/-- C3 witness: the amended theorem applied to the concrete convention-(b)
table `tblW`. -/
theorem C3_amended_hardcoded_columns_witness :
    process_csv_file tblW none = .ok (merge_air_temp none (daily_stats tblW.rows)) :=
  C3_amended_hardcoded_columns tblW none (by decide) (by decide)

theorem lookup_eq_none_iff (tbl : AirTempLookup) (d : String) :
    tbl.lookup d = none ↔ d ∉ tbl.map Prod.fst := by
  induction tbl with
  | nil => simp
  | cons p tl ih =>
    obtain ⟨k, v⟩ := p
    by_cases hk : d = k
    · subst hk
      simp [List.lookup]
    · have hbeq : (d == k) = false := by simpa using hk
      simp only [List.lookup, hbeq, List.map_cons, List.mem_cons]
      rw [ih]
      tauto

/-- C6: the air-temperature merge is total and pure by construction, and its
contract holds: the output has one record per input record, with `date`,
`temp_c`, `min_temp_c`, `max_temp_c` and `n_values` untouched, and
`airtemp_c` equal to the looked-up value for the date of the record; with no
lookup the looked-up value is always the absence marker, and with a lookup
it is the absence marker exactly when the date is not one of its keys. -/
theorem C6_air_temp_merge_contract :
    (∀ (lookup : Option AirTempLookup) (aggs : List DailyAggregate),
      List.Forall₂ (fun a b =>
        b.date = a.date ∧ b.temp_c = a.temp_c ∧ b.min_temp_c = a.min_temp_c ∧
        b.max_temp_c = a.max_temp_c ∧ b.n_values = a.n_values ∧
        b.airtemp_c = airtempOf lookup a.date) aggs (merge_air_temp lookup aggs)) ∧
    (∀ d : String, airtempOf none d = none) ∧
    (∀ (tbl : AirTempLookup) (d : String),
      airtempOf (some tbl) d = none ↔ d ∉ tbl.map Prod.fst) := by
  refine ⟨fun lookup aggs => ?_, fun d => rfl, fun tbl d => lookup_eq_none_iff tbl d⟩
  rw [merge_air_temp_eq_map, List.forall₂_map_right_iff, List.forall₂_same]
  intro a _
  exact ⟨rfl, rfl, rfl, rfl, rfl, rfl⟩

/-- C7: merging an AirTempLookup onto a sequence of daily aggregates twice
yields the same sequence as merging it once, for every lookup, present or
absent, and every aggregate sequence. -/
theorem C7_merge_air_temp_idempotent (lookup : Option AirTempLookup)
    (aggs : List DailyAggregate) :
    merge_air_temp lookup (merge_air_temp lookup aggs) = merge_air_temp lookup aggs := by
  simp only [merge_air_temp_eq_map, List.map_map]
  rfl

theorem stationStep_no_match {env : Env} {s : StationRecord}
    (h : findMatch env.csv_files s.station_code = none) :
    stationStep env s = .ok s := by
  unfold stationStep
  rw [h]

theorem stationStep_match_error {env : Env} {s : StationRecord} {f e : String}
    (hm : findMatch env.csv_files s.station_code = some f)
    (hc : env.copy_fails f = false)
    (hp : process_csv_file (env.file_content f) (env.airtemp s.station_code) = .error e) :
    stationStep env s = .ok { s with csv_filename := some f } := by
  unfold stationStep
  rw [hm]
  simp only [hc, Bool.false_eq_true, if_false, hp]

theorem stationStep_match_ok {env : Env} {s : StationRecord} {f : String}
    {data : List DailyAggregate} {first last : DailyAggregate}
    (hm : findMatch env.csv_files s.station_code = some f)
    (hc : env.copy_fails f = false)
    (hp : process_csv_file (env.file_content f) (env.airtemp s.station_code) = .ok data)
    (hh : data.head? = some first) (hl : data.getLast? = some last) :
    stationStep env s = .ok
      { s with
        csv_filename := some f
        n := data.length
        start := first.date
        «end» := last.date } := by
  unfold stationStep
  rw [hm]
  simp only [hc, Bool.false_eq_true, if_false, hp, hh, hl, ite_self]

theorem update_stations_data_cons {env : Env} {s : StationRecord}
    {rest : List StationRecord} {r : StationRecord} {out : List StationRecord}
    (hs : stationStep env s = .ok r)
    (hrest : update_stations_data env rest = .ok out) :
    update_stations_data env (s :: rest) = .ok (r :: out) := by
  show (do
    let r2 ← stationStep env s
    let rs ← update_stations_data env rest
    .ok (r2 :: rs) : Except String (List StationRecord)) = _
  rw [hs, hrest]
  rfl

theorem update_stations_data_cons_error {env : Env} {s : StationRecord}
    {rest : List StationRecord} {e : String}
    (hs : stationStep env s = .error e) :
    update_stations_data env (s :: rest) = .error e := by
  show (do
    let r2 ← stationStep env s
    let rs ← update_stations_data env rest
    .ok (r2 :: rs) : Except String (List StationRecord)) = _
  rw [hs]
  rfl

theorem update_stations_data_cons_tail_error {env : Env} {s : StationRecord}
    {rest : List StationRecord} {r : StationRecord} {e : String}
    (hs : stationStep env s = .ok r)
    (hrest : update_stations_data env rest = .error e) :
    update_stations_data env (s :: rest) = .error e := by
  show (do
    let r2 ← stationStep env s
    let rs ← update_stations_data env rest
    .ok (r2 :: rs) : Except String (List StationRecord)) = _
  rw [hs, hrest]
  rfl

theorem stationStep_isOk (env : Env) (hc : ∀ f, env.copy_fails f = false)
    (s : StationRecord) : ∃ r, stationStep env s = .ok r := by
  cases h : stationStep env s with
  | ok r => exact ⟨r, rfl⟩
  | error e =>
    exfalso
    unfold stationStep at h
    split at h
    · cases h
    · rename_i f hm
      simp only [hc, Bool.false_eq_true, if_false] at h
      split at h
      · cases h
      · split at h <;> (try split at h) <;> cases h

theorem stationStep_preserves_identity {env : Env} {s r : StationRecord}
    (h : stationStep env s = .ok r) :
    r.station_code = s.station_code ∧ r.filename = s.filename ∧ r.extra = s.extra := by
  unfold stationStep at h
  split at h
  · cases h
    exact ⟨rfl, rfl, rfl⟩
  · split at h
    · cases h
    · split at h
      · cases h
        exact ⟨rfl, rfl, rfl⟩
      · split at h <;> split at h <;> (cases h; exact ⟨rfl, rfl, rfl⟩)

/-- A persisted station record, as loaded from a previous `stations.json`. -/
def stC2 : StationRecord :=
  { station_code := "AAA"
    csv_filename := none
    start := "2020-01-01"
    «end» := "2020-12-31"
    n := 5
    filename := "AAA.json"
    extra := [("latitude", "54.0")] }

/-- An environment whose one CSV file matches station `AAA` but cannot be
aggregated: its header lacks the hardcoded `timestamp` column. -/
def envC2 : Env :=
  { csv_files := ["AAA_data.csv"]
    file_content := fun _ => ⟨["time", "temp"], []⟩
    copy_fails := fun _ => false
    write_fails := fun _ => false
    airtemp := fun _ => none }

/-- C2 counterexample: a station whose matched raw file fails processing is
appended with its `csv_filename` already overwritten to the matched file
name — the prior record is not kept entirely unchanged, because
`csv_filename` is assigned before the guarded block is entered. -/
theorem C2_counterexample :
    stationStep envC2 stC2 = .ok { stC2 with csv_filename := some "AAA_data.csv" } ∧
    stationStep envC2 stC2 ≠ .ok stC2 := by
  constructor
  · decide
  · decide

/-- C2 amended: in Update mode, when processing the matched raw file of a
station raises an error, the error is caught, the station keeps every prior
field except `csv_filename` — already overwritten with the matched file
name before processing was attempted — and the batch continues with the
next station. -/
theorem C2_amended_error_keeps_rest_of_record (env : Env) (s : StationRecord)
    (f e : String) (rest out : List StationRecord)
    (hm : findMatch env.csv_files s.station_code = some f)
    (hc : env.copy_fails f = false)
    (hp : process_csv_file (env.file_content f) (env.airtemp s.station_code) = .error e)
    (hrest : update_stations_data env rest = .ok out) :
    stationStep env s = .ok { s with csv_filename := some f } ∧
    update_stations_data env (s :: rest) =
      .ok ({ s with csv_filename := some f } :: out) := by
  have hstep := stationStep_match_error hm hc hp
  exact ⟨hstep, update_stations_data_cons hstep hrest⟩

/-- C2 witness: the amended theorem on the concrete failing station. -/
theorem C2_amended_error_keeps_rest_of_record_witness :
    stationStep envC2 stC2 = .ok { stC2 with csv_filename := some "AAA_data.csv" } ∧
    update_stations_data envC2 [stC2] =
      .ok [{ stC2 with csv_filename := some "AAA_data.csv" }] :=
  C2_amended_error_keeps_rest_of_record envC2 stC2 "AAA_data.csv" "KeyError: timestamp"
    [] [] (by decide) rfl (by decide) rfl

/-- An environment whose one CSV file matches station `AAA` and whose copy
step raises (for instance a permission error on the public directory). -/
def envC4 : Env :=
  { csv_files := ["AAA_data.csv"]
    file_content := fun _ => ⟨["timestamp", "wtmp"], []⟩
    copy_fails := fun _ => true
    write_fails := fun _ => false
    airtemp := fun _ => none }

/-- C4 counterexample: a failure of the raw-file copy step happens outside
the per-station guarded block, so the whole Update run aborts with the
error instead of continuing with the remaining stations. -/
theorem C4_counterexample :
    update_stations_data envC4 [stC2] = .error "copy failed for AAA_data.csv" := by
  decide

/-- C4 amended: every error raised inside the per-station guarded block (a
parse or aggregation failure, or the per-station file write) is caught at
the station boundary and the batch continues: when no raw-file copy failure
occurs, the whole run returns, with one record per station, whatever each
per-station outcome was. A copy failure, which the source performs outside
the guarded block, escapes and aborts the run. -/
theorem C4_amended_no_abort_without_copy_failure (env : Env)
    (hc : ∀ f, env.copy_fails f = false) (stations : List StationRecord) :
    ∃ out, update_stations_data env stations = .ok out ∧
      out.length = stations.length := by
  induction stations with
  | nil => exact ⟨[], rfl, rfl⟩
  | cons s rest ih =>
    obtain ⟨out, hout, hlen⟩ := ih
    obtain ⟨r, hr⟩ := stationStep_isOk env hc s
    exact ⟨r :: out, update_stations_data_cons hr hout, by simp [hlen]⟩

/-- A run environment with one healthy raw file for station `BBB`. -/
def tbl9 : RawTable :=
  ⟨["timestamp", "wtmp"], [⟨"2021-05-01", some 10⟩, ⟨"2021-05-03", some 11⟩]⟩

def st9 : StationRecord :=
  { station_code := "BBB"
    csv_filename := none
    start := "1900-01-01"
    «end» := "1900-01-02"
    n := 0
    filename := "BBB.json"
    extra := [] }

def env9 : Env :=
  { csv_files := ["BBB_data.csv"]
    file_content := fun _ => tbl9
    copy_fails := fun _ => false
    write_fails := fun _ => false
    airtemp := fun _ => none }

/-- C4 witness: the amended theorem on a healthy one-station batch. -/
theorem C4_amended_no_abort_without_copy_failure_witness :
    ∃ out, update_stations_data env9 [st9] = .ok out ∧ out.length = [st9].length :=
  C4_amended_no_abort_without_copy_failure env9 (fun _ => rfl) [st9]

/-- C8: in Update mode, a station with no matching raw file is passed
through with every field unchanged, and the rest of the batch is processed
as if the station were absent. -/
theorem C8_no_match_passthrough (env : Env) (s : StationRecord)
    (h : findMatch env.csv_files s.station_code = none) :
    stationStep env s = .ok s ∧
    ∀ (rest out : List StationRecord), update_stations_data env rest = .ok out →
      update_stations_data env (s :: rest) = .ok (s :: out) := by
  have hstep := stationStep_no_match h
  exact ⟨hstep, fun rest out hrest => update_stations_data_cons hstep hrest⟩

/-- An environment in which no raw files were discovered at all. -/
def envC8 : Env :=
  { csv_files := []
    file_content := fun _ => ⟨[], []⟩
    copy_fails := fun _ => false
    write_fails := fun _ => false
    airtemp := fun _ => none }

/-- C8 witness: the pass-through theorem on a concrete station with no
discovered files. -/
theorem C8_no_match_passthrough_witness :
    stationStep envC8 stC2 = .ok stC2 ∧
    ∀ (rest out : List StationRecord), update_stations_data envC8 rest = .ok out →
      update_stations_data envC8 (stC2 :: rest) = .ok (stC2 :: out) :=
  C8_no_match_passthrough envC8 stC2 rfl

/-- C9: in Update mode, a station whose matched raw file processes into a
nonempty aggregate sequence gets `start` overwritten with the date of the
first aggregate, `end` with the date of the last, `n` with the number of
records of the recomputed series, and `csv_filename` with the matched file
name; every other field is kept. -/
theorem C9_success_overwrites_span (env : Env) (s : StationRecord)
    (f : String) (data : List DailyAggregate) (first last : DailyAggregate)
    (hm : findMatch env.csv_files s.station_code = some f)
    (hc : env.copy_fails f = false)
    (hp : process_csv_file (env.file_content f) (env.airtemp s.station_code) = .ok data)
    (hh : data.head? = some first) (hl : data.getLast? = some last) :
    stationStep env s = .ok
      { s with
        csv_filename := some f
        n := data.length
        start := first.date
        «end» := last.date } :=
  stationStep_match_ok hm hc hp hh hl

/-- C9 witness: the span-overwrite theorem on the healthy `BBB` station. -/
theorem C9_success_overwrites_span_witness :
    stationStep env9 st9 = .ok
      { st9 with
        csv_filename := some "BBB_data.csv"
        n := 2
        start := "2021-05-01"
        «end» := "2021-05-03" } :=
  C9_success_overwrites_span env9 st9 "BBB_data.csv"
    (merge_air_temp none (daily_stats tbl9.rows))
    { aggFor tbl9.rows "2021-05-01" with airtemp_c := none }
    { aggFor tbl9.rows "2021-05-03" with airtemp_c := none }
    rfl rfl rfl rfl rfl

/-- C10: whenever Update mode returns a station sequence, it holds exactly
one record per input station, in input order — no station dropped or
duplicated — and each output record keeps the identity fields (station
code, output filename, untouched extra fields) of the input record at its
position. -/
theorem C10_one_record_per_station (env : Env) (stations out : List StationRecord)
    (h : update_stations_data env stations = .ok out) :
    List.Forall₂ (fun s r => r.station_code = s.station_code ∧
      r.filename = s.filename ∧ r.extra = s.extra) stations out := by
  induction stations generalizing out with
  | nil =>
    cases Except.ok.inj h
    exact List.Forall₂.nil
  | cons s rest ih =>
    cases hs : stationStep env s with
    | error e =>
      rw [update_stations_data_cons_error hs] at h
      cases h
    | ok r =>
      cases hrest : update_stations_data env rest with
      | error e =>
        rw [update_stations_data_cons_tail_error hs hrest] at h
        cases h
      | ok out2 =>
        rw [update_stations_data_cons hs hrest] at h
        cases Except.ok.inj h
        exact List.Forall₂.cons (stationStep_preserves_identity hs) (ih out2 hrest)

/-- C10 witness: the correspondence theorem on a concrete one-station run. -/
theorem C10_one_record_per_station_witness :
    List.Forall₂ (fun s r => r.station_code = s.station_code ∧
      r.filename = s.filename ∧ r.extra = s.extra) [stC2] [stC2] :=
  C10_one_record_per_station envC8 [stC2] [stC2] rfl

end UNBCWater
